import Mathlib

/-!
Verification of the AgroLens frontend core logic (Team_Bahubali_Backend).

This file gives a shallow embedding of the client-side orchestration logic:
the detection result normalizer and chat adapter (`services/geminiService.ts`),
the forecast reconciler (`WeatherForecast.fetchWeatherData`), and the camera
negotiator (`DiseaseDetector.openCamera` / `closeCamera`), together with
theorems settling the specification claims about them.

Modelling conventions:
* JavaScript strings are Lean `String`s (UTF-16 code-unit comparison agrees
  with Lean's code-point comparison on the BMP strings appearing here);
  `toLowerCase` is modelled with `Char.toLower`, which agrees on ASCII.
* JSON numbers are modelled as `Int` (the claims never exercise fractional
  number formatting); temperatures are modelled as `Rat`.
* `fetch` responses are modelled by their observable parts: an HTTP status
  and an optional parsed JSON body (`none` = body was not valid JSON).
* Promise rejection / `throw` is modelled with `Except` or by returning the
  final surfaced error message; totality of the Lean functions models
  "never throws" for the operations claimed to be safe.
-/

namespace AgroLens

/-! ## JavaScript string primitives -/

/-- Model of JavaScript `String.prototype.toLowerCase` (ASCII-faithful). -/
def jsToLower (s : String) : String :=
  String.mk (s.data.map Char.toLower)

/-- Boolean test that the second list is a prefix of the first
(the search pattern is the second argument). -/
def startsWithB : List Char → List Char → Bool
  | _, [] => true
  | [], _ :: _ => false
  | c :: cs, q :: qs => (c = q) && startsWithB cs qs

/-- Boolean contiguous-substring scan: does `p` occur inside `s`?
Model of JavaScript `String.prototype.includes`. -/
def containsSub : List Char → List Char → Bool
  | [], p => p.isEmpty
  | c :: cs, p => startsWithB (c :: cs) p || containsSub cs p

/-- JavaScript `s.includes(pat)`. -/
def jsIncludes (s pat : String) : Bool :=
  containsSub s.data pat.data

/-! ## Detection result normalizer (`services/geminiService.ts`) -/

/-- Medicine entry of the backend `treatment_details.medicines` list
(field names as used by the frontend). -/
structure Medicine where
  name : String
  typical_dosage_or_application : String
  notes : String
deriving DecidableEq

/-- Backend `disease_info` payload. -/
structure DiseaseInfo where
  predicted_disease : String
  confidence_score : Rat
deriving DecidableEq

/-- Backend `treatment_details` payload.  The TypeScript code defends each
field with `|| []` / `|| ''`, so the fields are modelled as optional. -/
structure TreatmentDetails where
  medicines : Option (List Medicine)
  precautions : Option (List String)
  causes : Option (List String)
  summary : Option String
  disclaimer : Option String
deriving DecidableEq

/-- The backend success response schema (`BackendDiseaseResponse`). -/
structure BackendDiseaseResponse where
  disease_info : DiseaseInfo
  treatment_details : TreatmentDetails
deriving DecidableEq

/-- The frontend `DiseaseDetectionResult` model. -/
structure DiseaseDetectionResult where
  diseaseName : String
  medicines : List Medicine
  precautions : List String
  causes : List String
  summary : String
  disclaimer : String
  isHealthy : Bool
  isCropDetected : Bool
deriving DecidableEq

/-- Translation of `mapBackendResponseToDiseaseResult`: maps the backend's
response to the frontend's `DiseaseDetectionResult`, inferring the boolean
flags from the predicted disease name. -/
def mapBackendResponseToDiseaseResult (data : BackendDiseaseResponse) : DiseaseDetectionResult :=
  let diseaseName := data.disease_info.predicted_disease
  let isHealthy := jsIncludes (jsToLower diseaseName) "healthy"
  let isCropDetected := !(jsIncludes (jsToLower diseaseName) "no crop detected")
  { diseaseName := diseaseName
    medicines := data.treatment_details.medicines.getD []
    precautions := data.treatment_details.precautions.getD []
    causes := data.treatment_details.causes.getD []
    summary := data.treatment_details.summary.getD ""
    disclaimer := data.treatment_details.disclaimer.getD ""
    isHealthy := isHealthy
    isCropDetected := isCropDetected }

/-! ## JSON values and `JSON.stringify` -/

/-- JSON values as produced by `response.json()`.  Numbers are restricted to
integers (no claim exercises fractional formatting); object fields keep
their insertion order and are assumed duplicate-free, as `JSON.parse`
guarantees. -/
inductive JsonVal where
  | null : JsonVal
  | bool (b : Bool) : JsonVal
  | num (n : Int) : JsonVal
  | str (s : String) : JsonVal
  | arr (elems : List JsonVal) : JsonVal
  | obj (fields : List (String × JsonVal)) : JsonVal

/-- JavaScript truthiness of a JSON value (`NaN` is outside the model). -/
def jsTruthy : JsonVal → Bool
  | JsonVal.null => false
  | JsonVal.bool b => b
  | JsonVal.num n => n != 0
  | JsonVal.str s => s != ""
  | JsonVal.arr _ => true
  | JsonVal.obj _ => true

/-- JavaScript property access `v.k`: `some` when `v` is an object carrying
the key, `none` (i.e. `undefined`) otherwise. -/
def jsGet (v : JsonVal) (k : String) : Option JsonVal :=
  match v with
  | JsonVal.obj fields => fields.lookup k
  | _ => none

/-- Escape of one character inside a JSON string literal, as produced by
`JSON.stringify` (the claims only exercise the common escapes). -/
def jsonEscChar (c : Char) : String :=
  if c = '"' then "\\\""
  else if c = '\\' then "\\\\"
  else if c = '\n' then "\\n"
  else if c = '\r' then "\\r"
  else if c = '\t' then "\\t"
  else String.singleton c

/-- Render a string as a quoted JSON string literal. -/
def jsonQuote (s : String) : String :=
  "\"" ++ String.join (s.data.map jsonEscChar) ++ "\""

mutual

/-- Model of `JSON.stringify` (compact form, no spacing). -/
def stringifyJson : JsonVal → String
  | JsonVal.null => "null"
  | JsonVal.bool b => if b then "true" else "false"
  | JsonVal.num n => toString n
  | JsonVal.str s => jsonQuote s
  | JsonVal.arr elems => "[" ++ String.intercalate "," (stringifyJsonList elems) ++ "]"
  | JsonVal.obj fields => "\x7b" ++ String.intercalate "," (stringifyJsonFields fields) ++ "\x7d"

/-- Stringify each element of a JSON array. -/
def stringifyJsonList : List JsonVal → List String
  | [] => []
  | v :: vs => stringifyJson v :: stringifyJsonList vs

/-- Stringify each `key:value` field of a JSON object. -/
def stringifyJsonFields : List (String × JsonVal) → List String
  | [] => []
  | kv :: kvs => (jsonQuote kv.1 ++ ":" ++ stringifyJson kv.2) :: stringifyJsonFields kvs

end

/-! ## `detectDisease` error path -/

/-- Whether an HTTP status is a success status (`response.ok`). -/
def responseOk (status : Nat) : Bool :=
  200 ≤ status && status ≤ 299

/-- Message built from a truthy `detail` value inside a parsed error body:
an array is joined entry-wise with spaces (stringifying non-string entries),
a string is used directly, anything else is stringified whole. -/
def detailMessage : JsonVal → String
  | JsonVal.arr elems =>
      String.intercalate " "
        (elems.map (fun d => match d with
          | JsonVal.str s => s
          | _ => stringifyJson d))
  | JsonVal.str s => s
  | d => stringifyJson d

/-- Translation of the non-`ok` branch of `detectDisease`: the message of the
`Error` thrown inside the `try` block.  `parsed = none` models a body that is
not valid JSON (the code then embeds the raw response text in a generic HTTP
error message); otherwise the `detail`-based messages are produced only for
status 400 with a truthy parsed body and a truthy `detail` field, and every
other case stringifies the whole parsed body. -/
def rawErrorMessage (status : Nat) (parsed : Option JsonVal) (errorText : String) : String :=
  match parsed with
  | none => "HTTP error! status: " ++ toString status ++ ", message: " ++ errorText
  | some p =>
      if status = 400 && jsTruthy p then
        match jsGet p "detail" with
        | some d => if jsTruthy d then detailMessage d else stringifyJson p
        | none => stringifyJson p
      else stringifyJson p

/-- Translation of the surfaced error of `detectDisease` on a non-success
response: the `catch` block rethrows the thrown `Error` when its message is
truthy (nonempty) and otherwise falls back to the generic `t.errorApi`
string.  (The `TypeError`/`Failed to fetch` connection branch cannot trigger
for these internally thrown `Error`s and is outside this model.) -/
def detectDiseaseErrorSurfaced (status : Nat) (parsed : Option JsonVal)
    (errorText : String) (tErrorApi : String) : String :=
  let m := rawErrorMessage status parsed errorText
  if m = "" then tErrorApi else m

/-! ## Chat session adapter (`sendMessageToChat`) -/

/-- Failure kinds of the chat adapter: the internal unexpected-format error,
the generic surfaced chat error (`t.chatError`), and the connection error. -/
inductive ChatFailure where
  | unexpectedFormat : ChatFailure
  | chatError : ChatFailure
  | connectionError : ChatFailure
deriving DecidableEq

/-- Model of `Object.values(data)` for the parsed chat response.  Only the
object case matters to the claims; an array yields its elements.  Primitive
values are modelled as having no values (for `null` the real code throws a
`TypeError`, which the catch-all maps to the same generic chat failure the
empty-values path produces, so the surfaced outcome agrees). -/
def jsObjectValues : JsonVal → List JsonVal
  | JsonVal.obj fields => fields.map Prod.snd
  | JsonVal.arr elems => elems
  | _ => []

/-- Translation of the reply extraction inside `sendMessageToChat`'s `try`
block: if the value list is non-empty and its head is a string, resolve with
it; otherwise throw the unexpected-response-format error. -/
def chatInnerResult (data : JsonVal) : Except ChatFailure String :=
  match jsObjectValues data with
  | JsonVal.str s :: _ => Except.ok s
  | _ => Except.error ChatFailure.unexpectedFormat

/-- Translation of `sendMessageToChat` after a successful (`ok`) fetch of a
JSON body: the `catch` block maps every internally thrown error that is not
a `Failed to fetch` `TypeError` — in particular the unexpected-format error —
to a fresh generic `Error(t.chatError)`. -/
def sendMessageToChatModel (data : JsonVal) : Except ChatFailure String :=
  match chatInnerResult data with
  | Except.ok s => Except.ok s
  | Except.error _ => Except.error ChatFailure.chatError

/-- Modelled from the spec: the first value of the response object that is of
string type (the spec's reading of the reply-extraction contract), used to
compare the specified behaviour with the implemented one. -/
def firstStringValue (data : JsonVal) : Option String :=
  (jsObjectValues data).findSome? (fun v => match v with
    | JsonVal.str s => some s
    | _ => none)

/-! ## Forecast reconciler (`WeatherForecast.fetchWeatherData`) -/

/-- One raw entry of the OpenWeather 3-hour forecast list, restricted to the
fields the code reads (`dt_txt`, `main.temp`, `weather[0].description`,
`weather[0].icon`; the `weather` array is assumed non-empty as the API
guarantees). -/
structure RawForecastItem where
  dt_txt : String
  main_temp : Rat
  weather_description : String
  weather_icon : String
deriving DecidableEq

/-- Date key of a raw entry: `item.dt_txt.split(' ')[0]`, i.e. the prefix of
the timestamp before the first space. -/
def dateKeyOf (item : RawForecastItem) : String :=
  String.mk (item.dt_txt.data.takeWhile (fun c => c ≠ ' '))

/-- Accumulating translation of the `dailyForecasts` grouping loop: keep only
the first entry seen per calendar date, in insertion order. -/
def groupDailyAux (acc : List (String × RawForecastItem)) :
    List RawForecastItem → List (String × RawForecastItem)
  | [] => acc
  | item :: rest =>
      let k := dateKeyOf item
      groupDailyAux (if (acc.map Prod.fst).contains k then acc else acc ++ [(k, item)]) rest

/-- The `dailyForecasts` object as an ordered association list. -/
def groupDaily (items : List RawForecastItem) : List (String × RawForecastItem) :=
  groupDailyAux [] items

/-- Model of `Object.keys(dailyForecasts).sort()`: the grouped date keys in
ascending JavaScript string order (code-unit lexicographic). -/
def sortKeys (keys : List String) : List String :=
  keys.insertionSort (· ≤ ·)

/-- Translation of one iteration of the selection loop: prefer the exact
target key when grouped and unused, else the first (smallest) sorted key
`>= tk` that is unused, else any unused key, else nothing.  `avail` is the
sorted key array; membership in it coincides with key-presence in the
`dailyForecasts` object. -/
def pickOne (avail : List String) (used : List String) (tk : String) : Option String :=
  if avail.contains tk && !used.contains tk then some tk
  else
    match avail.find? (fun k => !decide (k < tk) && !used.contains k) with
    | some k => some k
    | none => avail.find? (fun k => !used.contains k)

/-- Translation of the whole selection loop over the target keys, threading
the set of used keys. -/
def pickKeysAux (avail : List String) (used : List String) : List String → List (Option String)
  | [] => []
  | tk :: tks =>
      let c := pickOne avail used tk
      c :: pickKeysAux avail (used ++ c.toList) tks

/-- The grouped date keys selected for the target days, in slot order
(`none` = the slot gets the placeholder entry). -/
def pickedDateKeys (items : List RawForecastItem) (targets : List String) : List (Option String) :=
  pickKeysAux (sortKeys ((groupDaily items).map Prod.fst)) [] targets

/-- The frontend `WeatherInfo` model (one rendered forecast day). -/
structure WeatherInfo where
  day : String
  temp : Int
  condition : String
  icon : String
deriving DecidableEq

/-- JavaScript `Math.round` on the rational temperature (half away from
negative infinity). -/
def jsRound (q : Rat) : Int :=
  ⌊q + 1 / 2⌋

/-- Translation of the per-slot formatting: a missing entry becomes the
placeholder day (zero temperature, empty condition, default icon `01d`),
a present entry is mapped to its rounded temperature, primary description
and icon code. -/
def formatEntry (grouped : List (String × RawForecastItem)) (label : String)
    (keyOpt : Option String) : WeatherInfo :=
  match keyOpt.bind (fun k => grouped.lookup k) with
  | none => { day := label, temp := 0, condition := "", icon := "01d" }
  | some item =>
      { day := label
        temp := jsRound item.main_temp
        condition := item.weather_description
        icon := item.weather_icon }

/-- Translation of the day label selection: slot 0 is `t.today`, slot 1 is
`t.tomorrow`, later slots use `t.dayAfterTomorrow` with the localized
weekday name as fallback when that translation is absent (falsy). -/
def dayLabel (tToday tTomorrow tDayAfter fallbackWeekday : String) (idx : Nat) : String :=
  if idx = 0 then tToday
  else if idx = 1 then tTomorrow
  else if tDayAfter = "" then fallbackWeekday else tDayAfter

/-- Translation of the reconciliation core of `fetchWeatherData`: group the
raw list by date, select a grouped key for each of the three target date
keys, format each slot, and truncate to three entries. -/
def fetchWeatherDataModel (items : List RawForecastItem)
    (todayKey tomorrowKey dayAfterKey : String)
    (tToday tTomorrow tDayAfter fallbackWeekday : String) : List WeatherInfo :=
  let grouped := groupDaily items
  let picked := pickedDateKeys items [todayKey, tomorrowKey, dayAfterKey]
  (picked.enum.map (fun p =>
    formatEntry grouped (dayLabel tToday tTomorrow tDayAfter fallbackWeekday p.1) p.2)).take 3

/-! ## Device capability negotiator (`openCamera` / `closeCamera`) -/

/-- Camera facing preference: rear (`environment`) or front (`user`). -/
inductive CameraFacing where
  | environment : CameraFacing
  | user : CameraFacing
deriving DecidableEq

/-- The `getUserMedia` constraint shapes tried by `openCamera`, in the
order the code pushes them onto `tryConstraints`. -/
inductive CameraConstraint where
  | exactDevice (deviceId : String) : CameraConstraint
  | exactFacing (facing : CameraFacing) : CameraConstraint
  | idealFacing (facing : CameraFacing) : CameraConstraint
  | anyCamera : CameraConstraint
deriving DecidableEq

/-- Translation of the `tryConstraints` construction: exact device id first
(only when one is given), then exact facing, then ideal facing, then any
camera.  `facing.getD stateFacing` mirrors `options?.facing || cameraFacing`
(the `|| 'environment'` tail is unreachable as the state is always set). -/
def buildTryConstraints (deviceId : Option String) (facing : Option CameraFacing)
    (stateFacing : CameraFacing) : List CameraConstraint :=
  (match deviceId with
   | some id => [CameraConstraint.exactDevice id]
   | none => []) ++
  (let facingToTry := facing.getD stateFacing
   [CameraConstraint.exactFacing facingToTry,
    CameraConstraint.idealFacing facingToTry,
    CameraConstraint.anyCamera])

/-- Translation of the constraint trial loop: try each constraint in order,
swallowing per-constraint failures, and stop at the first stream obtained.
The platform's `getUserMedia` is modelled as a function returning `some`
stream on success and `none` on rejection. -/
def tryConstraintsLoop {σ : Type} (getUserMedia : CameraConstraint → Option σ) :
    List CameraConstraint → Option σ
  | [] => none
  | c :: cs =>
      match getUserMedia c with
      | some s => some s
      | none => tryConstraintsLoop getUserMedia cs

/-- Translation of `openCamera`: `none` models the failure path (the thrown
`Could not access any camera` / missing `mediaDevices` errors, both landing
in the error state), `some` a successfully acquired stream. -/
def openCameraModel {σ : Type} (mediaDevicesSupported : Bool)
    (getUserMedia : CameraConstraint → Option σ)
    (deviceId : Option String) (facing : Option CameraFacing)
    (stateFacing : CameraFacing) : Option σ :=
  if mediaDevicesSupported then
    tryConstraintsLoop getUserMedia (buildTryConstraints deviceId facing stateFacing)
  else none

/-- A media track: the only state the code touches is whether it is stopped. -/
structure MediaTrack where
  stopped : Bool
deriving DecidableEq

/-- Model of `track.stop()`: stopping is idempotent at the track level. -/
def stopTrack (_t : MediaTrack) : MediaTrack :=
  { stopped := true }

/-- State visible to `closeCamera`: the tracks of the (single) stream object,
whether the component still references the stream (`stream !== null`), and
the camera-open flag. -/
structure CameraViewState where
  tracks : List MediaTrack
  streamAttached : Bool
  isCameraOpen : Bool
deriving DecidableEq

/-- Translation of `closeCamera`: stop every track of the referenced stream
(if any), then clear the stream reference and close the camera view. -/
def closeCamera (st : CameraViewState) : CameraViewState :=
  { tracks := if st.streamAttached then st.tracks.map stopTrack else st.tracks
    streamAttached := false
    isCameraOpen := false }

/-! ## Concrete fixtures used by the witness theorems -/

/-- A `getUserMedia` behaviour on which only the `any camera` constraint
succeeds (e.g. a device exposing only a user-facing camera that rejects
every `environment` facing constraint). -/
def anyOnlyGetUserMedia : CameraConstraint → Option Nat
  | CameraConstraint.anyCamera => some 0
  | _ => none

/-- A raw forecast list holding a single entry dated 2026-10-12. -/
def sampleItems : List RawForecastItem :=
  [{ dt_txt := "2026-10-12 09:00:00"
     main_temp := 25
     weather_description := "light rain"
     weather_icon := "10d" }]

/-- A raw forecast list with two 2026-10-11 entries and one entry for each
of the two following days. -/
def sampleItemsThreeDays : List RawForecastItem :=
  [{ dt_txt := "2026-10-11 00:00:00"
     main_temp := 21
     weather_description := "clear sky"
     weather_icon := "01d" }
  ,{ dt_txt := "2026-10-11 03:00:00"
     main_temp := 22
     weather_description := "few clouds"
     weather_icon := "02d" }
  ,{ dt_txt := "2026-10-12 00:00:00"
     main_temp := 23
     weather_description := "light rain"
     weather_icon := "10d" }
  ,{ dt_txt := "2026-10-13 00:00:00"
     main_temp := 24
     weather_description := "overcast clouds"
     weather_icon := "04d" }]

/-- A backend error body whose `detail` is a plain string. -/
def sampleDetailBody : JsonVal :=
  JsonVal.obj [("detail", JsonVal.str
    "No valid plant leaf detected. Please upload a clear image of a plant leaf.")]

/-- The validation-error body of the spec example: `detail` is an array of
one structured entry. -/
def sampleDetailArrayBody : JsonVal :=
  JsonVal.obj [("detail", JsonVal.arr
    [JsonVal.obj [("loc", JsonVal.arr [JsonVal.str "file"]),
                  ("msg", JsonVal.str "field required")]])]

/-- A chat response whose single property is the reply string. -/
def sampleChatReply : JsonVal :=
  JsonVal.obj [("reply", JsonVal.str "Apply fungicide weekly")]

/-- A chat response whose first property is a number and whose second is a
string. -/
def sampleChatMixed : JsonVal :=
  JsonVal.obj [("count", JsonVal.num 5), ("reply", JsonVal.str "Apply fungicide weekly")]

/-- A chat response with no string-valued property at all. -/
def sampleChatNoString : JsonVal :=
  JsonVal.obj [("count", JsonVal.num 7)]

/-! ## Helper lemmas -/

theorem startsWithB_iff (s p : List Char) : startsWithB s p = true ↔ p <+: s := by
  induction p generalizing s with
  | nil =>
      cases s <;> simp [startsWithB, List.nil_prefix]
  | cons q qs ih =>
      cases s with
      | nil => simp [startsWithB, List.prefix_nil]
      | cons c cs =>
          simp only [startsWithB, Bool.and_eq_true, decide_eq_true_eq,
            List.cons_prefix_cons, ih]
          constructor
          · rintro ⟨h1, h2⟩; exact ⟨h1.symm, h2⟩
          · rintro ⟨h1, h2⟩; exact ⟨h1.symm, h2⟩

theorem containsSub_iff (s p : List Char) : containsSub s p = true ↔ p <:+: s := by
  induction s with
  | nil =>
      simp only [containsSub, List.isEmpty_iff]
      constructor
      · intro h; subst h; exact List.nil_infix
      · intro h; exact List.eq_nil_of_infix_nil h
  | cons c cs ih =>
      simp only [containsSub, Bool.or_eq_true, startsWithB_iff, ih,
        List.infix_cons_iff]

theorem jsIncludes_iff (s pat : String) :
    jsIncludes s pat = true ↔ pat.data <:+: s.data :=
  containsSub_iff s.data pat.data

/-! ## C1: normalizer flag derivation -/

/-- C1: for every detection success response, the normalizer sets
`isHealthy` to `true` exactly when the predicted disease name contains the
substring "healthy" case-insensitively, and sets `isCropDetected` to `false`
exactly when the name contains the substring "no crop detected"
case-insensitively; each flag is governed by its own substring rule alone,
so a name matching both substrings sets both flags accordingly. -/
theorem mapBackendResponse_flag_rules (data : BackendDiseaseResponse) :
    ((mapBackendResponseToDiseaseResult data).isHealthy = true ↔
      "healthy".data <:+: (jsToLower data.disease_info.predicted_disease).data) ∧
    ((mapBackendResponseToDiseaseResult data).isCropDetected = false ↔
      "no crop detected".data <:+: (jsToLower data.disease_info.predicted_disease).data) := by
  unfold mapBackendResponseToDiseaseResult
  constructor
  · exact jsIncludes_iff _ _
  · simp only [Bool.not_eq_false']
    exact jsIncludes_iff _ _

/-! ## C2: detection error `detail` handling -/

/-- C2 counterexample: a non-success status other than 400 (here 500) with
the JSON body `\x7b"detail":"oops"\x7d` does not produce the detail string
"oops" as claimed; the code inspects `detail` only for status 400 and
otherwise stringifies the whole parsed body. -/
theorem detectDisease_detail_counterexample :
    detectDiseaseErrorSurfaced 500 (some (JsonVal.obj [("detail", JsonVal.str "oops")]))
        "" "generic" = "\x7b\"detail\":\"oops\"\x7d" ∧
    "\x7b\"detail\":\"oops\"\x7d" ≠ "oops" := by
  constructor
  · rfl
  · decide

/-- C2 (amended): for a detection request answered with HTTP status 400 and
a JSON body that is truthy and carries a truthy `detail` field, provided the
derived message is nonempty (so the catch-all does not replace it with the
generic API error), the surfaced error message is: the detail string itself
when `detail` is a string; the space-separated concatenation of the entries
(non-string entries stringified as JSON) when `detail` is an array; and the
JSON stringification of `detail` otherwise.  Other non-success statuses,
falsy `detail` values, and empty derived messages instead surface the
stringified whole body or the generic API error. -/
theorem detectDisease_detail_message (status : Nat) (p d : JsonVal)
    (errorText tErrorApi : String)
    (hstatus : status = 400)
    (hp : jsTruthy p = true)
    (hget : jsGet p "detail" = some d)
    (hd : jsTruthy d = true)
    (hne : detailMessage d ≠ "") :
    detectDiseaseErrorSurfaced status (some p) errorText tErrorApi = detailMessage d ∧
    (∀ s, d = JsonVal.str s →
      detectDiseaseErrorSurfaced status (some p) errorText tErrorApi = s) ∧
    (∀ elems, d = JsonVal.arr elems →
      detectDiseaseErrorSurfaced status (some p) errorText tErrorApi =
        String.intercalate " " (elems.map (fun x => match x with
          | JsonVal.str s => s
          | _ => stringifyJson x))) ∧
    ((∀ s, d ≠ JsonVal.str s) → (∀ elems, d ≠ JsonVal.arr elems) →
      detectDiseaseErrorSurfaced status (some p) errorText tErrorApi = stringifyJson d) := by
  subst hstatus
  have hmain : detectDiseaseErrorSurfaced 400 (some p) errorText tErrorApi = detailMessage d := by
    unfold detectDiseaseErrorSurfaced rawErrorMessage
    simp only [hp, hget, hd, if_pos, Bool.and_self, if_true]
    simp [hne]
  refine ⟨hmain, ?_, ?_, ?_⟩
  · intro s hs
    rw [hmain, hs]
    rfl
  · intro elems hs
    rw [hmain, hs]
    rfl
  · intro hs ha
    rw [hmain]
    cases d with
    | str s => exact absurd rfl (hs s)
    | arr elems => exact absurd rfl (ha elems)
    | null => rfl
    | bool b => rfl
    | num n => rfl
    | obj fields => rfl

/-- C2 witness: the spec's HTTP-400 string-detail example surfaces the
detail string verbatim. -/
theorem detectDisease_detail_message_witness :
    detectDiseaseErrorSurfaced 400 (some sampleDetailBody) "" "generic" =
      "No valid plant leaf detected. Please upload a clear image of a plant leaf." :=
  (detectDisease_detail_message 400 sampleDetailBody
      (JsonVal.str "No valid plant leaf detected. Please upload a clear image of a plant leaf.")
      "" "generic" rfl rfl rfl rfl (by decide)).2.1 _ rfl

/-! ## C3: chat reply extraction -/

/-- C3 counterexample: for the response whose first property value is a
number and whose second is the string "Apply fungicide weekly", the first
string-typed value exists but `send` fails (with the generic chat failure)
instead of resolving to it: the code only inspects `responseValues[0]`. -/
theorem sendChat_first_string_counterexample :
    firstStringValue sampleChatMixed = some "Apply fungicide weekly" ∧
    sendMessageToChatModel sampleChatMixed = Except.error ChatFailure.chatError := by
  constructor <;> rfl

/-- C3 (amended): `send` resolves with a reply `s` exactly when the first
value of the response object is the string `s`; a string value in a later
position does not rescue a non-string first value.  In particular the
response `\x7b"reply":"Apply fungicide weekly"\x7d` resolves to
"Apply fungicide weekly". -/
theorem sendChat_resolves_iff (data : JsonVal) (s : String) :
    (sendMessageToChatModel data = Except.ok s ↔
      (jsObjectValues data).head? = some (JsonVal.str s)) ∧
    sendMessageToChatModel sampleChatReply = Except.ok "Apply fungicide weekly" := by
  refine ⟨?_, rfl⟩
  unfold sendMessageToChatModel chatInnerResult
  cases hv : jsObjectValues data with
  | nil => simp
  | cons v vs =>
      cases v <;> simp

/-! ## C4: chat unexpected-format failure -/

/-- C4 counterexample: for the response with no string-valued property the
failure surfaced to the caller is the generic chat error, which is a
different error kind from the unexpected-response-format error. -/
theorem sendChat_unexpected_counterexample :
    sendMessageToChatModel sampleChatNoString = Except.error ChatFailure.chatError ∧
    ChatFailure.chatError ≠ ChatFailure.unexpectedFormat := by
  constructor
  · rfl
  · decide

/-- C4 (amended): for every chat success response object containing no
string-valued property, `send` fails; the unexpected-response-format error is
raised internally, but the failure surfaced to the caller is the generic
chat error, because the adapter's catch-all replaces every internal error
that is not a connection failure. -/
theorem sendChat_noString_fails (data : JsonVal)
    (h : ((jsObjectValues data).all fun v => match v with
          | JsonVal.str _ => false
          | _ => true) = true) :
    chatInnerResult data = Except.error ChatFailure.unexpectedFormat ∧
    sendMessageToChatModel data = Except.error ChatFailure.chatError := by
  have hinner : chatInnerResult data = Except.error ChatFailure.unexpectedFormat := by
    unfold chatInnerResult
    cases hv : jsObjectValues data with
    | nil => rfl
    | cons v vs =>
        rw [hv] at h
        cases v with
        | str s => simp [List.all_cons] at h
        | null => rfl
        | bool b => rfl
        | num n => rfl
        | arr elems => rfl
        | obj fields => rfl
  refine ⟨hinner, ?_⟩
  unfold sendMessageToChatModel
  rw [hinner]

/-- C4 witness: the no-string-property response indeed surfaces the generic
chat failure. -/
theorem sendChat_noString_fails_witness :
    chatInnerResult sampleChatNoString = Except.error ChatFailure.unexpectedFormat ∧
    sendMessageToChatModel sampleChatNoString = Except.error ChatFailure.chatError :=
  sendChat_noString_fails sampleChatNoString rfl

/-! ## Forecast reconciler lemmas -/

theorem mem_sortKeys (k : String) (keys : List String) : k ∈ sortKeys keys ↔ k ∈ keys :=
  (List.perm_insertionSort (· ≤ ·) keys).mem_iff

theorem sortKeys_sorted (keys : List String) : (sortKeys keys).Sorted (· ≤ ·) :=
  List.sorted_insertionSort (· ≤ ·) keys

theorem groupDailyAux_ne_nil (l : List RawForecastItem) :
    ∀ acc, acc ≠ [] → groupDailyAux acc l ≠ [] := by
  induction l with
  | nil => intro acc h; exact h
  | cons item rest ih =>
      intro acc h
      unfold groupDailyAux
      apply ih
      split
      · exact h
      · simp

theorem groupDaily_ne_nil (items : List RawForecastItem) (h : items ≠ []) :
    groupDaily items ≠ [] := by
  cases items with
  | nil => exact absurd rfl h
  | cons item rest =>
      show groupDailyAux [] (item :: rest) ≠ []
      unfold groupDailyAux
      apply groupDailyAux_ne_nil
      simp

theorem sortKeys_ne_nil (keys : List String) (h : keys ≠ []) : sortKeys keys ≠ [] := by
  intro hs
  have hp := List.perm_insertionSort (· ≤ ·) keys
  rw [show keys.insertionSort (· ≤ ·) = sortKeys keys from rfl, hs] at hp
  exact h hp.nil_eq.symm

theorem pickOne_some (avail used : List String) (tk k : String)
    (h : pickOne avail used tk = some k) : k ∈ avail ∧ k ∉ used := by
  unfold pickOne at h
  split at h
  · rename_i hcond
    cases h
    simp only [Bool.and_eq_true, Bool.not_eq_true'] at hcond
    obtain ⟨h1, h2⟩ := hcond
    constructor
    · simpa using h1
    · simpa using h2
  · split at h
    · rename_i k' hf
      cases h
      have hmem := List.mem_of_find?_eq_some hf
      have hpred := List.find?_some hf
      simp only [Bool.and_eq_true, Bool.not_eq_true'] at hpred
      exact ⟨hmem, by simpa using hpred.2⟩
    · have hmem := List.mem_of_find?_eq_some h
      have hpred := List.find?_some h
      simp only [Bool.not_eq_true'] at hpred
      exact ⟨hmem, by simpa using hpred⟩

theorem pickOne_none (avail used : List String) (tk : String)
    (h : pickOne avail used tk = none) : ∀ k ∈ avail, k ∈ used := by
  unfold pickOne at h
  split at h
  · cases h
  · split at h
    · cases h
    · intro k hk
      have := List.find?_eq_none.mp h k hk
      simpa using this

theorem pickKeysAux_length (avail : List String) :
    ∀ (targets used : List String), (pickKeysAux avail used targets).length = targets.length := by
  intro targets
  induction targets with
  | nil => intro used; rfl
  | cons tk tks ih =>
      intro used
      show (pickOne avail used tk ::
        pickKeysAux avail (used ++ (pickOne avail used tk).toList) tks).length = tks.length + 1
      simp [ih]

theorem pickKeysAux_invariant (avail : List String) :
    ∀ (targets used : List String),
      (∀ k ∈ (pickKeysAux avail used targets).filterMap id, k ∈ avail ∧ k ∉ used) ∧
      ((pickKeysAux avail used targets).filterMap id).Nodup ∧
      (∀ i (h : i < (pickKeysAux avail used targets).length),
        (pickKeysAux avail used targets).get ⟨i, h⟩ = none →
        ∀ k ∈ avail, k ∈ used ∨ some k ∈ (pickKeysAux avail used targets).take i) := by
  intro targets
  induction targets with
  | nil =>
      intro used
      refine ⟨?_, ?_, ?_⟩
      · intro k hk; simp [pickKeysAux] at hk
      · simp [pickKeysAux]
      · intro i h; simp [pickKeysAux] at h
  | cons tk tks ih =>
      intro used
      have hres : pickKeysAux avail used (tk :: tks) =
          pickOne avail used tk ::
            pickKeysAux avail (used ++ (pickOne avail used tk).toList) tks := rfl
      obtain ⟨ih1, ih2, ih3⟩ := ih (used ++ (pickOne avail used tk).toList)
      rw [hres]
      refine ⟨?_, ?_, ?_⟩
      · intro k hk
        cases hc : pickOne avail used tk with
        | none =>
            rw [hc] at hk
            simp only [List.filterMap_cons, id] at hk
            have := ih1 k (by simpa [hc] using hk)
            refine ⟨this.1, ?_⟩
            intro hku
            exact this.2 (by simp [hc, hku])
        | some a =>
            rw [hc] at hk ih1
            simp only [List.filterMap_cons, id, List.mem_cons] at hk
            cases hk with
            | inl hka =>
                subst hka
                exact pickOne_some avail used tk k hc
            | inr hkr =>
                have := ih1 k hkr
                refine ⟨this.1, ?_⟩
                intro hku
                exact this.2 (by simp [hku])
      · cases hc : pickOne avail used tk with
        | none =>
            rw [hc] at ih2
            simp only [List.filterMap_cons, id]
            simpa using ih2
        | some a =>
            rw [hc] at ih1 ih2
            simp only [List.filterMap_cons, id]
            refine List.Nodup.cons ?_ ih2
            intro ha
            have := (ih1 a ha).2
            exact this (by simp)
      · intro i h hnone k hk
        cases i with
        | zero =>
            simp only [List.get] at hnone
            exact Or.inl (pickOne_none avail used tk hnone k hk)
        | succ j =>
            have hj : j < (pickKeysAux avail (used ++ (pickOne avail used tk).toList) tks).length := by
              simpa using Nat.lt_of_succ_lt_succ (by simpa [pickKeysAux_length] using h)
            have hget : (pickKeysAux avail (used ++ (pickOne avail used tk).toList) tks).get ⟨j, hj⟩ = none := by
              simpa using hnone
            have := ih3 j hj hget k hk
            rw [List.take_succ_cons]
            cases this with
            | inl hku =>
                rw [List.mem_append] at hku
                cases hku with
                | inl h1 => exact Or.inl h1
                | inr h2 =>
                    refine Or.inr (List.mem_cons.mpr (Or.inl ?_))
                    cases hc : pickOne avail used tk with
                    | none => rw [hc] at h2; simp at h2
                    | some a => rw [hc] at h2; simp at h2; simp [h2]
            | inr hkr =>
                exact Or.inr (List.mem_cons.mpr (Or.inr hkr))

theorem find_ge_min (tk : String) (l : List String) (hs : l.Sorted (· ≤ ·)) (k : String)
    (h : l.find? (fun x => !decide (x < tk) && !List.contains ([] : List String) x) = some k) :
    tk ≤ k ∧ ∀ k' ∈ l, tk ≤ k' → k ≤ k' := by
  induction l with
  | nil => cases h
  | cons a rest ih =>
      rw [List.sorted_cons] at hs
      obtain ⟨ha, hrest⟩ := hs
      by_cases hpa : (!decide (a < tk) && !List.contains ([] : List String) a) = true
      · rw [@List.find?_cons_of_pos String
            (fun x => !decide (x < tk) && !List.contains ([] : List String) x) a rest hpa] at h
        cases h
        simp only [Bool.and_eq_true, Bool.not_eq_true', decide_eq_false_iff_not] at hpa
        refine ⟨le_of_not_lt hpa.1, ?_⟩
        intro k' hk' _
        rcases List.mem_cons.mp hk' with h1 | h2
        · exact le_of_eq h1.symm
        · exact ha k' h2
      · rw [@List.find?_cons_of_neg String
            (fun x => !decide (x < tk) && !List.contains ([] : List String) x) a rest hpa] at h
        obtain ⟨h1, h2⟩ := ih hrest h
        refine ⟨h1, ?_⟩
        intro k' hk' hk'ge
        rcases List.mem_cons.mp hk' with he | hm
        · subst he
          exfalso
          apply hpa
          simp [not_lt.mpr hk'ge]
        · exact h2 k' hm hk'ge

theorem formatEntry_day (grouped : List (String × RawForecastItem)) (label : String)
    (c : Option String) : (formatEntry grouped label c).day = label := by
  unfold formatEntry
  cases c.bind (fun k => grouped.lookup k) <;> rfl

theorem pickedDateKeys_head (items : List RawForecastItem) (t1 t2 t3 : String) :
    (pickedDateKeys items [t1, t2, t3]).head? =
      some (pickOne (sortKeys ((groupDaily items).map Prod.fst)) [] t1) := rfl

theorem fetchWeatherDataModel_explicit (items : List RawForecastItem)
    (t1 t2 t3 tT tTm tDA fb : String) :
    fetchWeatherDataModel items t1 t2 t3 tT tTm tDA fb =
      (pickedDateKeys items [t1, t2, t3]).enum.map (fun p =>
        formatEntry (groupDaily items) (dayLabel tT tTm tDA fb p.1) p.2) := by
  unfold fetchWeatherDataModel
  have hlen : (pickedDateKeys items [t1, t2, t3]).length = 3 :=
    pickKeysAux_length _ _ _
  rw [List.take_of_length_le]
  simp [hlen]

/-! ## C5: three labelled forecast days -/

/-- C5: for every raw forecast list whose grouped calendar dates span at
least three distinct dates including today's, the reconciler returns exactly
3 entries whose day labels are the localized "today", "tomorrow" and
"day after tomorrow" strings in that order (the last label taken as given,
being nonempty). -/
theorem forecast_three_labeled_days (items : List RawForecastItem)
    (todayKey k2 k3 tT tTm tDA fb : String)
    (hToday : todayKey ∈ (groupDaily items).map Prod.fst)
    (hSpan : 3 ≤ ((groupDaily items).map Prod.fst).length)
    (hLabel : tDA ≠ "") :
    (fetchWeatherDataModel items todayKey k2 k3 tT tTm tDA fb).length = 3 ∧
    (fetchWeatherDataModel items todayKey k2 k3 tT tTm tDA fb).map WeatherInfo.day =
      [tT, tTm, tDA] := by
  have hexp := fetchWeatherDataModel_explicit items todayKey k2 k3 tT tTm tDA fb
  have hlen : (pickedDateKeys items [todayKey, k2, k3]).length = 3 :=
    pickKeysAux_length _ _ _
  obtain ⟨a, b, c, habc⟩ : ∃ a b c, pickedDateKeys items [todayKey, k2, k3] = [a, b, c] := by
    match hv : pickedDateKeys items [todayKey, k2, k3], hlen with
    | [a, b, c], _ => exact ⟨a, b, c, rfl⟩
  rw [hexp, habc]
  simp [List.enum, List.enumFrom, formatEntry_day, dayLabel, hLabel]

/-! ## C7: empty raw list gives three placeholders -/

/-- C7: for the empty raw forecast list the reconciler never fails and
returns exactly 3 placeholder entries, each with temperature 0, empty
condition string and the default icon code `01d` (the model is a total
function, so no exception is possible). -/
theorem forecast_empty_placeholders (t1 t2 t3 tT tTm tDA fb : String) :
    fetchWeatherDataModel [] t1 t2 t3 tT tTm tDA fb =
      [{ day := tT, temp := 0, condition := "", icon := "01d" },
       { day := tTm, temp := 0, condition := "", icon := "01d" },
       { day := (if tDA = "" then fb else tDA), temp := 0, condition := "", icon := "01d" }] := rfl

theorem fetchWeatherDataModel_head (items : List RawForecastItem)
    (t1 t2 t3 tT tTm tDA fb : String) :
    (fetchWeatherDataModel items t1 t2 t3 tT tTm tDA fb).head? =
      some (formatEntry (groupDaily items) tT
        (pickOne (sortKeys ((groupDaily items).map Prod.fst)) [] t1)) := rfl

/-! ## C6: missing today falls forward to the nearest later date -/

/-- C6: for every non-empty raw forecast list whose grouped dates do not
include today's key, the reconciler does not fail: the today slot is filled
from some grouped key `k`; `k` is the lexicographically smallest grouped key
`>=` today's key whenever such a key exists, and otherwise an arbitrary
grouped key (the fallback); the first rendered entry is the formatted entry
of that key. -/
theorem forecast_today_missing (items : List RawForecastItem)
    (todayKey k2 k3 tT tTm tDA fb : String)
    (hne : items ≠ [])
    (hmiss : todayKey ∉ (groupDaily items).map Prod.fst) :
    ∃ k,
      (pickedDateKeys items [todayKey, k2, k3]).head? = some (some k) ∧
      k ∈ (groupDaily items).map Prod.fst ∧
      ((∃ k0 ∈ (groupDaily items).map Prod.fst, todayKey ≤ k0) → todayKey ≤ k) ∧
      (∀ k0 ∈ (groupDaily items).map Prod.fst, todayKey ≤ k0 → k ≤ k0) ∧
      (fetchWeatherDataModel items todayKey k2 k3 tT tTm tDA fb).head? =
        some (formatEntry (groupDaily items) tT (some k)) := by
  have hnotmem : todayKey ∉ sortKeys ((groupDaily items).map Prod.fst) := by
    intro h
    exact hmiss ((mem_sortKeys _ _).1 h)
  have hcont : (sortKeys ((groupDaily items).map Prod.fst)).contains todayKey = false := by
    refine Bool.eq_false_iff.mpr ?_
    intro htrue
    exact hnotmem (by simpa using htrue)
  have hpick : pickOne (sortKeys ((groupDaily items).map Prod.fst)) [] todayKey =
      (match (sortKeys ((groupDaily items).map Prod.fst)).find?
          (fun k => !decide (k < todayKey) && !List.contains ([] : List String) k) with
       | some k => some k
       | none => (sortKeys ((groupDaily items).map Prod.fst)).find?
           (fun k => !List.contains ([] : List String) k)) := by
    unfold pickOne
    rw [hcont]
    simp
  cases hf : (sortKeys ((groupDaily items).map Prod.fst)).find?
      (fun k => !decide (k < todayKey) && !List.contains ([] : List String) k) with
  | some k =>
      have hk : pickOne (sortKeys ((groupDaily items).map Prod.fst)) [] todayKey = some k := by
        rw [hpick, hf]
      obtain ⟨hge, hmin⟩ := find_ge_min todayKey _ (sortKeys_sorted _) k hf
      refine ⟨k, ?_, ?_, ?_, ?_, ?_⟩
      · rw [pickedDateKeys_head, hk]
      · exact (mem_sortKeys _ _).1 (List.mem_of_find?_eq_some hf)
      · intro _; exact hge
      · intro k0 hk0 hk0ge
        exact hmin k0 ((mem_sortKeys _ _).2 hk0) hk0ge
      · rw [fetchWeatherDataModel_head, hk]
  | none =>
      have hkeys : (groupDaily items).map Prod.fst ≠ [] := by
        intro h
        exact groupDaily_ne_nil items hne (List.map_eq_nil_iff.mp h)
      have hanil : sortKeys ((groupDaily items).map Prod.fst) ≠ [] :=
        sortKeys_ne_nil _ hkeys
      have hnosat : ∀ k0 ∈ (groupDaily items).map Prod.fst, ¬ todayKey ≤ k0 := by
        intro k0 hk0 hge
        have hk0avail : k0 ∈ sortKeys ((groupDaily items).map Prod.fst) :=
          (mem_sortKeys _ _).2 hk0
        have := List.find?_eq_none.mp hf k0 hk0avail
        apply this
        simp [not_lt.mpr hge]
      cases havail : sortKeys ((groupDaily items).map Prod.fst) with
      | nil => exact absurd havail hanil
      | cons a rest =>
          have hfall : (sortKeys ((groupDaily items).map Prod.fst)).find?
              (fun k => !List.contains ([] : List String) k) = some a := by
            rw [havail]
            exact @List.find?_cons_of_pos String
              (fun k => !List.contains ([] : List String) k) a rest (by simp)
          have hk : pickOne (sortKeys ((groupDaily items).map Prod.fst)) [] todayKey = some a := by
            rw [hpick, hf, hfall]
          refine ⟨a, ?_, ?_, ?_, ?_, ?_⟩
          · rw [pickedDateKeys_head, hk]
          · refine (mem_sortKeys _ _).1 ?_
            rw [havail]
            exact List.mem_cons_self a rest
          · rintro ⟨k0, hk0, hge⟩
            exact absurd hge (hnosat k0 hk0)
          · intro k0 hk0 hge
            exact absurd hge (hnosat k0 hk0)
          · rw [fetchWeatherDataModel_head, hk]

/-- C6 witness: with the single raw entry dated 2026-10-12 and today key
2026-10-11, the today slot is filled from 2026-10-12. -/
theorem forecast_today_missing_witness :
    ∃ k,
      (pickedDateKeys sampleItems ["2026-10-11", "2026-10-12", "2026-10-13"]).head? =
        some (some k) ∧
      k ∈ (groupDaily sampleItems).map Prod.fst ∧
      ((∃ k0 ∈ (groupDaily sampleItems).map Prod.fst, "2026-10-11" ≤ k0) → "2026-10-11" ≤ k) ∧
      (∀ k0 ∈ (groupDaily sampleItems).map Prod.fst, "2026-10-11" ≤ k0 → k ≤ k0) ∧
      (fetchWeatherDataModel sampleItems "2026-10-11" "2026-10-12" "2026-10-13"
          "today" "tomorrow" "day after tomorrow" "Tuesday").head? =
        some (formatEntry (groupDaily sampleItems) "today" (some k)) :=
  forecast_today_missing sampleItems "2026-10-11" "2026-10-12" "2026-10-13"
    "today" "tomorrow" "day after tomorrow" "Tuesday"
    (by decide) (by decide)

/-! ## C10: slot keys are distinct; placeholders only after exhaustion -/

/-- C10: for every raw forecast list, the grouped date keys selected for the
three slots are pairwise distinct grouped keys (no raw date group fills two
slots), and a slot is left to the placeholder only when every grouped date
key has already been used by an earlier slot. -/
theorem forecast_slots_invariant (items : List RawForecastItem) (t1 t2 t3 : String) :
    (∀ k ∈ (pickedDateKeys items [t1, t2, t3]).filterMap id,
        k ∈ (groupDaily items).map Prod.fst) ∧
    ((pickedDateKeys items [t1, t2, t3]).filterMap id).Nodup ∧
    (∀ i (h : i < (pickedDateKeys items [t1, t2, t3]).length),
      (pickedDateKeys items [t1, t2, t3]).get ⟨i, h⟩ = none →
      ∀ k ∈ (groupDaily items).map Prod.fst,
        some k ∈ (pickedDateKeys items [t1, t2, t3]).take i) := by
  obtain ⟨h1, h2, h3⟩ :=
    pickKeysAux_invariant (sortKeys ((groupDaily items).map Prod.fst)) [t1, t2, t3] []
  refine ⟨?_, h2, ?_⟩
  · intro k hk
    exact (mem_sortKeys _ _).1 (h1 k hk).1
  · intro i h hnone k hk
    have := h3 i h hnone k ((mem_sortKeys _ _).2 hk)
    cases this with
    | inl habs => simp at habs
    | inr hm => exact hm

/-- C10 witness: the invariant at a concrete raw list and concrete target
keys. -/
theorem forecast_slots_invariant_witness :
    (∀ k ∈ (pickedDateKeys sampleItems ["2026-10-11", "2026-10-12", "2026-10-13"]).filterMap id,
        k ∈ (groupDaily sampleItems).map Prod.fst) ∧
    ((pickedDateKeys sampleItems ["2026-10-11", "2026-10-12", "2026-10-13"]).filterMap id).Nodup ∧
    (∀ i (h : i < (pickedDateKeys sampleItems
        ["2026-10-11", "2026-10-12", "2026-10-13"]).length),
      (pickedDateKeys sampleItems ["2026-10-11", "2026-10-12", "2026-10-13"]).get ⟨i, h⟩ = none →
      ∀ k ∈ (groupDaily sampleItems).map Prod.fst,
        some k ∈ (pickedDateKeys sampleItems ["2026-10-11", "2026-10-12", "2026-10-13"]).take i) :=
  forecast_slots_invariant sampleItems "2026-10-11" "2026-10-12" "2026-10-13"

/-- C5 witness: a concrete list spanning the three target dates yields three
entries labelled with the localized strings in order. -/
theorem forecast_three_labeled_days_witness :
    (fetchWeatherDataModel sampleItemsThreeDays "2026-10-11" "2026-10-12" "2026-10-13"
        "today" "tomorrow" "day after tomorrow" "Tuesday").length = 3 ∧
    (fetchWeatherDataModel sampleItemsThreeDays "2026-10-11" "2026-10-12" "2026-10-13"
        "today" "tomorrow" "day after tomorrow" "Tuesday").map WeatherInfo.day =
      ["today", "tomorrow", "day after tomorrow"] :=
  forecast_three_labeled_days sampleItemsThreeDays "2026-10-11" "2026-10-12" "2026-10-13"
    "today" "tomorrow" "day after tomorrow" "Tuesday"
    (by decide) (by decide) (by decide)

/-! ## Camera lemmas -/

theorem tryConstraintsLoop_eq_findSome {σ : Type} (gum : CameraConstraint → Option σ)
    (cs : List CameraConstraint) : tryConstraintsLoop gum cs = cs.findSome? gum := by
  induction cs with
  | nil => rfl
  | cons c rest ih =>
      unfold tryConstraintsLoop
      rw [List.findSome?_cons]
      cases gum c <;> simp [ih]

theorem tryConstraintsLoop_eq_none_iff {σ : Type} (gum : CameraConstraint → Option σ)
    (cs : List CameraConstraint) :
    tryConstraintsLoop gum cs = none ↔ ∀ c ∈ cs, gum c = none := by
  induction cs with
  | nil => simp [tryConstraintsLoop]
  | cons c rest ih =>
      unfold tryConstraintsLoop
      cases hc : gum c with
      | some s => simp [hc]
      | none => simp [hc, ih]

/-! ## C8: camera constraint fallback -/

/-- C8: `openCamera` attempts the camera constraints in the fixed order
exact-device (only when a device id is given), exact facing, ideal facing,
any camera; it returns the first stream a constraint yields, and it fails
only when the platform lacks `mediaDevices` support or every constraint
fails.  In particular, when only the any-camera constraint succeeds (all
facing-specific attempts failing), `openCamera` still succeeds with that
stream. -/
theorem openCamera_fallback {σ : Type} (supported : Bool)
    (gum : CameraConstraint → Option σ) (deviceId : Option String)
    (facing : Option CameraFacing) (stateFacing : CameraFacing) :
    (buildTryConstraints deviceId facing stateFacing =
      (match deviceId with
       | some id => [CameraConstraint.exactDevice id]
       | none => []) ++
      [CameraConstraint.exactFacing (facing.getD stateFacing),
       CameraConstraint.idealFacing (facing.getD stateFacing),
       CameraConstraint.anyCamera]) ∧
    (openCameraModel supported gum deviceId facing stateFacing = none ↔
      (supported = false ∨
        ∀ c ∈ buildTryConstraints deviceId facing stateFacing, gum c = none)) ∧
    (openCameraModel true gum deviceId facing stateFacing =
      (buildTryConstraints deviceId facing stateFacing).findSome? gum) ∧
    (∀ s : σ,
      (∀ id, deviceId = some id → gum (CameraConstraint.exactDevice id) = none) →
      gum (CameraConstraint.exactFacing (facing.getD stateFacing)) = none →
      gum (CameraConstraint.idealFacing (facing.getD stateFacing)) = none →
      gum CameraConstraint.anyCamera = some s →
      openCameraModel true gum deviceId facing stateFacing = some s) := by
  refine ⟨rfl, ?_, ?_, ?_⟩
  · cases supported with
    | false => simp [openCameraModel]
    | true => simp [openCameraModel, tryConstraintsLoop_eq_none_iff]
  · simp [openCameraModel, tryConstraintsLoop_eq_findSome]
  · intro s h1 h2 h3 h4
    cases hd : deviceId with
    | none =>
        subst hd
        simp [openCameraModel, buildTryConstraints, tryConstraintsLoop, h2, h3, h4]
    | some id =>
        subst hd
        simp [openCameraModel, buildTryConstraints, tryConstraintsLoop,
          h1 id rfl, h2, h3, h4]

/-- C8 witness: a preference for the environment facing on a device where
only the any-camera constraint succeeds still yields a stream. -/
theorem openCamera_fallback_witness :
    openCameraModel true anyOnlyGetUserMedia none (some CameraFacing.environment)
      CameraFacing.environment = some 0 :=
  (openCamera_fallback true anyOnlyGetUserMedia none (some CameraFacing.environment)
      CameraFacing.environment).2.2.2 0 (fun id h => by cases h) rfl rfl rfl

/-! ## C9: closeCamera safety and idempotence -/

theorem stopTrack_map_stopped (ts : List MediaTrack) (h : ∀ tr ∈ ts, tr.stopped = true) :
    ts.map stopTrack = ts := by
  induction ts with
  | nil => rfl
  | cons t rest ih =>
      have ht := h t (List.mem_cons_self t rest)
      have hrest : ∀ tr ∈ rest, tr.stopped = true :=
        fun tr htr => h tr (List.mem_cons_of_mem t htr)
      cases t with
      | mk b =>
          simp only [List.map_cons, ih hrest]
          simp only [MediaTrack.stopped] at ht
          subst ht
          rfl

/-- C9: `closeCamera` never throws (it is a total function on every state),
calling it twice leaves the same state as calling it once, and it performs
no stream operation when the stream is `null` (not attached) or when every
track is already stopped: in both cases the track states are unchanged. -/
theorem closeCamera_safe (st : CameraViewState) :
    closeCamera (closeCamera st) = closeCamera st ∧
    (st.streamAttached = false → (closeCamera st).tracks = st.tracks) ∧
    ((∀ tr ∈ st.tracks, tr.stopped = true) → (closeCamera st).tracks = st.tracks) := by
  refine ⟨?_, ?_, ?_⟩
  · simp [closeCamera]
  · intro h
    simp [closeCamera, h]
  · intro h
    cases hb : st.streamAttached with
    | false => simp [closeCamera, hb]
    | true => simp [closeCamera, hb, stopTrack_map_stopped st.tracks h]

/-- C9 witness: double close equals single close on a live state, and the
tracks are untouched for a null stream and for an already-stopped stream. -/
theorem closeCamera_safe_witness :
    closeCamera (closeCamera ⟨[⟨false⟩], true, true⟩) = closeCamera ⟨[⟨false⟩], true, true⟩ ∧
    (closeCamera ⟨[⟨true⟩], false, true⟩).tracks = [⟨true⟩] ∧
    (closeCamera ⟨[⟨true⟩], true, true⟩).tracks = [⟨true⟩] :=
  ⟨(closeCamera_safe ⟨[⟨false⟩], true, true⟩).1,
   (closeCamera_safe ⟨[⟨true⟩], false, true⟩).2.1 rfl,
   (closeCamera_safe ⟨[⟨true⟩], true, true⟩).2.2 (by decide)⟩

end AgroLens
